import Mathlib

/-!
Verification of the `http-mailer` request-handling pipeline (`src/main.rs`).

Strings are embedded as `List Char` (`Str`).  The byte offsets of the Rust
code coincide with character offsets here because every delimiter the code
searches for (the body sentinel, `'='`, header names) is ASCII.

External crates are abstracted as parameters of the embedding:
* `sha : Str → Str` stands for the `sha2` crate's hex-encoded SHA-256
  (`format!("\x7bhashed_api_key:x\x7d")` in the source);
* `parseMb : Str → Option Mailbox` stands for `lettre`'s
  `str::parse::<Mailbox>` (`none` models a parse error);
* `transportOk : ComposedMessage → Bool` stands for
  `SmtpTransport::unencrypted_localhost().send` (`false` models a
  transport error).
The repository's `src/error.rs` (module `error`) is not present under
`src/`; the `Error` type and its `status_code`/`description` methods are
modelled from the spec's error taxonomy (spec section 7).
-/

/-- Strings of the embedding: lists of characters. -/
abbrev Str := List Char

/-- ASCII lowercasing of one character, as Rust's `to_ascii_lowercase`:
`'A'..='Z'` shifts by 32, everything else is unchanged. -/
def asciiLowerChar (c : Char) : Char :=
  if 'A' ≤ c ∧ c ≤ 'Z' then Char.ofNat (c.toNat + 32) else c

/-- ASCII lowercasing of a string (Rust `str::to_ascii_lowercase`). -/
def asciiLowerL (s : Str) : Str := s.map asciiLowerChar

/-- `startsWithL pat s` decides whether `pat` is a leading segment of `s`. -/
def startsWithL : Str → Str → Bool
  | [], _ => true
  | _ :: _, [] => false
  | p :: ps, c :: cs => decide (p = c) && startsWithL ps cs

/-- First index at which `pat` occurs inside the haystack, as Rust
`str::find` (byte offsets there, character offsets here). -/
def findSub (pat : Str) : Str → Option Nat
  | [] => if startsWithL pat [] then some 0 else none
  | c :: t => if startsWithL pat (c :: t) then some 0 else (findSub pat t).map (· + 1)

/-- Substring containment, as Rust `str::contains`. -/
def containsSub (hay pat : Str) : Bool := (findSub pat hay).isSome

theorem startsWithL_iff (p s : Str) : startsWithL p s = true ↔ ∃ t, s = p ++ t := by
  induction p generalizing s with
  | nil => simp [startsWithL]
  | cons a as ih =>
    cases s with
    | nil => simp [startsWithL]
    | cons c cs =>
      simp only [startsWithL, Bool.and_eq_true, decide_eq_true_eq, ih]
      constructor
      · rintro ⟨rfl, t, rfl⟩
        exact ⟨t, rfl⟩
      · rintro ⟨t, h⟩
        cases h
        exact ⟨rfl, t, rfl⟩

theorem startsWithL_refl (p : Str) : startsWithL p p = true :=
  (startsWithL_iff p p).mpr ⟨[], by simp⟩

theorem findSub_sound (pat hay : Str) (i : Nat) (h : findSub pat hay = some i) :
    startsWithL pat (hay.drop i) = true := by
  induction hay generalizing i with
  | nil =>
    simp only [findSub] at h
    split at h
    · cases h; simpa using ‹startsWithL pat [] = true›
    · cases h
  | cons c t ih =>
    simp only [findSub] at h
    split at h
    · cases h; simpa using ‹startsWithL pat (c :: t) = true›
    · cases heq : findSub pat t with
      | none => rw [heq] at h; cases h
      | some j =>
        rw [heq] at h
        simp only [Option.map_some'] at h
        cases h
        simpa using ih j heq

theorem findSub_least (pat hay : Str) (i : Nat) (h : findSub pat hay = some i) :
    ∀ j < i, startsWithL pat (hay.drop j) = false := by
  induction hay generalizing i with
  | nil =>
    simp only [findSub] at h
    split at h
    · cases h; intro j hj; exact absurd hj (Nat.not_lt_zero j)
    · cases h
  | cons c t ih =>
    simp only [findSub] at h
    split at h
    · cases h; intro j hj; exact absurd hj (Nat.not_lt_zero j)
    · cases heq : findSub pat t with
      | none => rw [heq] at h; cases h
      | some k =>
        rw [heq] at h
        simp only [Option.map_some'] at h
        cases h
        intro j hj
        cases j with
        | zero => simpa using Bool.eq_false_iff.mpr ‹¬ startsWithL pat (c :: t) = true›
        | succ j' => simpa using ih k heq j' (Nat.lt_of_succ_lt_succ hj)

theorem findSub_complete (pat hay : Str) (h : findSub pat hay = none) :
    ∀ i, startsWithL pat (hay.drop i) = false := by
  induction hay with
  | nil =>
    intro i
    simp only [findSub] at h
    split at h
    · cases h
    · simpa [List.drop_nil] using Bool.eq_false_iff.mpr ‹¬ startsWithL pat [] = true›
  | cons c t ih =>
    intro i
    simp only [findSub] at h
    split at h
    · cases h
    · cases heq : findSub pat t with
      | some j => rw [heq] at h; cases h
      | none =>
        cases i with
        | zero => simpa using Bool.eq_false_iff.mpr ‹¬ startsWithL pat (c :: t) = true›
        | succ i' => simpa using ih heq i'

theorem findSub_of_first (pat hay : Str) (i : Nat)
    (hocc : startsWithL pat (hay.drop i) = true)
    (hfirst : ∀ j < i, startsWithL pat (hay.drop j) = false) :
    findSub pat hay = some i := by
  induction hay generalizing i with
  | nil =>
    cases i with
    | zero => simp only [List.drop_nil] at hocc; simp [findSub, hocc]
    | succ i' =>
      have h0 := hfirst 0 (Nat.succ_pos i')
      simp only [List.drop_nil] at hocc h0
      rw [hocc] at h0
      cases h0
  | cons c t ih =>
    cases i with
    | zero =>
      simp only [List.drop_zero] at hocc
      simp [findSub, hocc]
    | succ i' =>
      have h0 := hfirst 0 (Nat.succ_pos i')
      simp only [List.drop_zero] at h0
      have ht : findSub pat t = some i' := by
        apply ih i'
        · simpa using hocc
        · intro j hj
          simpa using hfirst (j + 1) (Nat.succ_lt_succ hj)
      simp [findSub, h0, ht]

/-- Modelled from the spec: `src/error.rs` (module `error`, type `Error`) is
absent from `src/`; the variants follow the spec's error taxonomy
(spec section 7). -/
inductive Error where
  | missingApiKey : Error
  | unauthorized : Str → Error
  | missingTo : Error
  | missingFrom : Error
  | missingSubject : Error
  | mailboxParseError : Error
  | dispatchFailed : Error
deriving DecidableEq

/-- A validated address (spec section 3): optional display name plus a
`local@domain` address.  The parsing itself lives in the external `lettre`
crate and is abstracted as a `Str → Option Mailbox` parameter. -/
structure Mailbox where
  displayName : Option Str
  address : Str
deriving DecidableEq

/-- Message body representation: `lettre`'s singlepart plain body versus the
`MultiPart::alternative_plain_html` two-part body. -/
inductive Body where
  | plain : Str → Body
  | alternative : Str → Str → Body
deriving DecidableEq

/-- The five optional fields scanned out of the headers
(`src/main.rs` lines 42-56). -/
structure Extracted where
  to_ : Option Str
  from_ : Option Str
  subject : Option Str
  reply_to : Option Str
  api_key : Option Str
deriving DecidableEq

/-- The message handed to the transport (`Message::builder()...`,
`src/main.rs` lines 91-107). -/
structure ComposedMessage where
  from_ : Mailbox
  to_ : Mailbox
  subject : Str
  reply_to : Option Mailbox
  body : Body
deriving DecidableEq

/-- One scan step of the header loop (`src/main.rs` lines 47-56): the header
name is ASCII-lowercased and matched against the five recognised names;
a match overwrites the field (so the last occurrence wins), the `from`
value is additionally ASCII-lowercased, anything else is ignored. -/
def extractStep (acc : Extracted) (h : Str × Str) : Extracted :=
  let n := asciiLowerL h.1
  if n = "to".data then { acc with to_ := some h.2 }
  else if n = "from".data then { acc with from_ := some (asciiLowerL h.2) }
  else if n = "subject".data then { acc with subject := some h.2 }
  else if n = "reply-to".data then { acc with reply_to := some h.2 }
  else if n = "api-key".data then { acc with api_key := some h.2 }
  else acc

/-- The header extraction scan (`src/main.rs` lines 42-56). -/
def extract (headers : List (Str × Str)) : Extracted :=
  headers.foldl extractStep ⟨none, none, none, none, none⟩

/-- The credential loop of `handle_request` (`src/main.rs` lines 66-79):
at the first entry whose identity equals the lowercased `from`, succeed
iff the computed digest contains the stored hash as a substring, else
return `Unauthorized` with the digest; if no entry matches, `authorized`
stays false and the result is also `Unauthorized`. -/
def authLoop (hashed_api_key f : Str) : List (Str × Str) → Option Error
  | [] => some (Error.unauthorized hashed_api_key)
  | (user, hashed_key) :: rest =>
    if user = f then
      if containsSub hashed_api_key hashed_key then none
      else some (Error.unauthorized hashed_api_key)
    else authLoop hashed_api_key f rest

/-- The api-key check of `handle_request` (`src/main.rs` lines 59-82):
`none` means authorized.  `sha` abstracts the `sha2` crate's hex digest. -/
def authenticate (sha : Str → Str) (api_key from_ : Option Str)
    (hashed_api_keys : List (Str × Str)) : Option Error :=
  match api_key with
  | some k => authLoop (sha k) ((from_.map asciiLowerL).getD []) hashed_api_keys
  | none => some Error.missingApiKey

/-- Parameter validation of `handle_request` (`src/main.rs` lines 85-88):
`to`, `from`, optional `reply-to` are parsed into mailboxes (a present but
malformed value is a parse error, an absent required value is a
`Missing...` error, in the source's order), `subject` must be present. -/
def validate (parseMb : Str → Option Mailbox) (ex : Extracted) :
    Except Error (Mailbox × Mailbox × Option Mailbox × Str) :=
  match ex.to_ with
  | none => Except.error Error.missingTo
  | some s =>
    match parseMb s with
    | none => Except.error Error.mailboxParseError
    | some to_ =>
      match ex.from_ with
      | none => Except.error Error.missingFrom
      | some s2 =>
        match parseMb s2 with
        | none => Except.error Error.mailboxParseError
        | some from_ =>
          match ex.reply_to with
          | none =>
            match ex.subject with
            | none => Except.error Error.missingSubject
            | some subject => Except.ok (to_, from_, none, subject)
          | some s3 =>
            match parseMb s3 with
            | none => Except.error Error.mailboxParseError
            | some mb =>
              match ex.subject with
              | none => Except.error Error.missingSubject
              | some subject => Except.ok (to_, from_, some mb, subject)

/-- The body-splitting sentinel (`src/main.rs` line 98); 31 characters. -/
def sentinel : Str := "\n-----END-TEXT-BEGIN-HTML-----\n".data

/-- `sentinelAt body i` decides whether the sentinel occurs in `body` at
offset `i`. -/
def sentinelAt (body : Str) (i : Nat) : Bool := startsWithL sentinel (body.drop i)

/-- Body composition (`src/main.rs` lines 98-107): split at the first
sentinel occurrence into the text before it and the text from 31
characters past it, or keep the whole body as a plain body. -/
def composeBody (body : Str) : Body :=
  match findSub sentinel body with
  | some idx => Body.alternative (body.take idx) (body.drop (idx + 31))
  | none => Body.plain body

/-- The request pipeline `handle_request` (`src/main.rs` lines 40-117).
Returns the terminal outcome together with the list of messages handed to
the transport (so dispatch can be reasoned about).  `lettre`'s message
*builder* errors (the two `?` on lines 104 and 106) are not modelled: with
`from`, `to` and `subject` always set the builder's failure cases are not
reachable through this code path and the spec's taxonomy has no kind for
them. -/
def handle_request (sha : Str → Str) (parseMb : Str → Option Mailbox)
    (transportOk : ComposedMessage → Bool)
    (headers : List (Str × Str)) (body : Str)
    (hashed_api_keys : List (Str × Str)) :
    Except Error Unit × List ComposedMessage :=
  let ex := extract headers
  match authenticate sha ex.api_key ex.from_ hashed_api_keys with
  | some e => (Except.error e, [])
  | none =>
    match validate parseMb ex with
    | Except.error e => (Except.error e, [])
    | Except.ok (to_, from_, reply_to, subject) =>
      let email : ComposedMessage := ⟨from_, to_, subject, reply_to, composeBody body⟩
      if transportOk email then (Except.ok (), [email])
      else (Except.error Error.dispatchFailed, [email])

/-- Rust `str::trim`, restricted to ASCII whitespace (the keys the loader
accepts are ASCII email-like strings, so the Unicode cases are inert). -/
def trimL (s : Str) : Str :=
  ((s.dropWhile Char.isWhitespace).reverse.dropWhile Char.isWhitespace).reverse

/-- Rust `char::is_ascii_hexdigit`. -/
def isAsciiHexdigit (c : Char) : Bool :=
  (decide ('0' ≤ c) && decide (c ≤ '9')) ||
  (decide ('a' ≤ c) && decide (c ≤ 'f')) ||
  (decide ('A' ≤ c) && decide (c ≤ 'F'))

/-- The credential-argument parser `parse_key_val` (`src/main.rs` lines
23-36): split at the first `'='`, trim and lowercase the key, require a
`'@'` in it, and require the value to be exactly 64 hex digits.  The
error messages of the source are not modelled (`none` stands for any
`Err`). -/
def parse_key_val (s : Str) : Option (Str × Str) :=
  match List.findIdx? (fun c => decide (c = '=')) s with
  | none => none
  | some pos =>
    let key := asciiLowerL (trimL (s.take pos))
    if '@' ∈ key then
      let value := s.drop (pos + 1)
      if value.length = 64 ∧ value.all isAsciiHexdigit = true then some (key, value)
      else none
    else none

/-- Modelled from the spec: `src/error.rs` is absent from `src/`; the
status code follows the severity table of spec section 7, where
`Unauthorized` is the one authentication failure (HTTP 401, the code
`main` tests on line 156), the other missing/malformed-input kinds are
client errors and `DispatchFailed` is a server-side error. -/
def Error.status_code : Error → Nat
  | Error.unauthorized _ => 401
  | Error.dispatchFailed => 500
  | _ => 400

/-- Modelled from the spec: `src/error.rs` is absent from `src/`; each kind
carries a short human-readable description (spec section 6). -/
def Error.description : Error → Str
  | Error.missingApiKey => "missing api-key header".data
  | Error.unauthorized _ => "unauthorized".data
  | Error.missingTo => "missing to header".data
  | Error.missingFrom => "missing from header".data
  | Error.missingSubject => "missing subject header".data
  | Error.mailboxParseError => "invalid mailbox".data
  | Error.dispatchFailed => "failed to send email".data

/-- Whether a failure is an authentication failure (the `Unauthorized`
kind, spec section 7). -/
def isAuthFailure : Error → Bool
  | Error.unauthorized _ => true
  | _ => false

/-- The operational error log written by `main` for one handled request
(`src/main.rs` lines 153-160): on failure, the description is written via
`eprintln!` exactly when the status code is not 401. -/
def errorLog (res : Except Error Unit) : List Str :=
  match res with
  | Except.ok _ => []
  | Except.error e => if e.status_code ≠ 401 then [e.description] else []

/-- The caller-visible outcome kinds (spec section 4.6: `Dispatched` or
`Failed(kind)` for each kind of spec section 7). -/
inductive OutKind where
  | dispatched : OutKind
  | missingApiKey : OutKind
  | unauthorized : OutKind
  | missingTo : OutKind
  | missingFrom : OutKind
  | missingSubject : OutKind
  | mailboxParseError : OutKind
  | dispatchFailed : OutKind
deriving DecidableEq

/-- Kind of a terminal outcome, forgetting the digest payload. -/
def outKind : Except Error Unit → OutKind
  | Except.ok _ => OutKind.dispatched
  | Except.error Error.missingApiKey => OutKind.missingApiKey
  | Except.error (Error.unauthorized _) => OutKind.unauthorized
  | Except.error Error.missingTo => OutKind.missingTo
  | Except.error Error.missingFrom => OutKind.missingFrom
  | Except.error Error.missingSubject => OutKind.missingSubject
  | Except.error Error.mailboxParseError => OutKind.mailboxParseError
  | Except.error Error.dispatchFailed => OutKind.dispatchFailed

/-- Strict-equality credential matching, following the spec's words
(spec section 9, Design Notes: "an implementer should default to strict
equality"); the refinement comparison target for the containment rule. -/
def authLoopExact (hashed_api_key f : Str) : List (Str × Str) → Option Error
  | [] => some (Error.unauthorized hashed_api_key)
  | (user, hashed_key) :: rest =>
    if user = f then
      if hashed_api_key = hashed_key then none
      else some (Error.unauthorized hashed_api_key)
    else authLoopExact hashed_api_key f rest

/-- Exact-match variant of `authenticate`, following the spec's words
(spec section 9); compared with the source's containment rule in the
refinement claim. -/
def authenticateExact (sha : Str → Str) (api_key from_ : Option Str)
    (hashed_api_keys : List (Str × Str)) : Option Error :=
  match api_key with
  | some k => authLoopExact (sha k) ((from_.map asciiLowerL).getD []) hashed_api_keys
  | none => some Error.missingApiKey

/-- The value of the last header whose ASCII-lowercased name is `name`
(the specification's "last occurrence wins" reading of extraction). -/
def lastVal (name : Str) (headers : List (Str × Str)) : Option Str :=
  ((headers.filter fun h => decide (asciiLowerL h.1 = name)).getLast?).map Prod.snd

theorem extract_append (hs : List (Str × Str)) (h : Str × Str) :
    extract (hs ++ [h]) = extractStep (extract hs) h := by
  simp [extract, List.foldl_append]

theorem lastVal_append (name : Str) (hs : List (Str × Str)) (h : Str × Str) :
    lastVal name (hs ++ [h]) =
      if asciiLowerL h.1 = name then some h.2 else lastVal name hs := by
  by_cases hm : asciiLowerL h.1 = name
  · simp [lastVal, List.filter_append, hm, List.getLast?_concat]
  · simp [lastVal, List.filter_append, hm]

theorem extract_eq_lastVal (headers : List (Str × Str)) :
    (extract headers).to_ = lastVal "to".data headers
    ∧ (extract headers).from_ = (lastVal "from".data headers).map asciiLowerL
    ∧ (extract headers).subject = lastVal "subject".data headers
    ∧ (extract headers).reply_to = lastVal "reply-to".data headers
    ∧ (extract headers).api_key = lastVal "api-key".data headers := by
  induction headers using List.reverseRecOn with
  | nil => exact ⟨rfl, rfl, rfl, rfl, rfl⟩
  | append_singleton hs h ih =>
    obtain ⟨h1, h2, h3, h4, h5⟩ := ih
    rw [extract_append, lastVal_append, lastVal_append, lastVal_append,
      lastVal_append, lastVal_append]
    by_cases e1 : asciiLowerL h.1 = "to".data
    · have e2 : ¬ asciiLowerL h.1 = "from".data := by rw [e1]; decide
      have e3 : ¬ asciiLowerL h.1 = "subject".data := by rw [e1]; decide
      have e4 : ¬ asciiLowerL h.1 = "reply-to".data := by rw [e1]; decide
      have e5 : ¬ asciiLowerL h.1 = "api-key".data := by rw [e1]; decide
      simp [extractStep, e1, e2, e3, e4, e5, h1, h2, h3, h4, h5]
    · by_cases e2 : asciiLowerL h.1 = "from".data
      · have e3 : ¬ asciiLowerL h.1 = "subject".data := by rw [e2]; decide
        have e4 : ¬ asciiLowerL h.1 = "reply-to".data := by rw [e2]; decide
        have e5 : ¬ asciiLowerL h.1 = "api-key".data := by rw [e2]; decide
        simp [extractStep, e1, e2, e3, e4, e5, h1, h2, h3, h4, h5]
      · by_cases e3 : asciiLowerL h.1 = "subject".data
        · have e4 : ¬ asciiLowerL h.1 = "reply-to".data := by rw [e3]; decide
          have e5 : ¬ asciiLowerL h.1 = "api-key".data := by rw [e3]; decide
          simp [extractStep, e1, e2, e3, e4, e5, h1, h2, h3, h4, h5]
        · by_cases e4 : asciiLowerL h.1 = "reply-to".data
          · have e5 : ¬ asciiLowerL h.1 = "api-key".data := by rw [e4]; decide
            simp [extractStep, e1, e2, e3, e4, e5, h1, h2, h3, h4, h5]
          · by_cases e5 : asciiLowerL h.1 = "api-key".data
            · simp [extractStep, e1, e2, e3, e4, e5, h1, h2, h3, h4, h5]
            · simp [extractStep, e1, e2, e3, e4, e5, h1, h2, h3, h4, h5]

theorem authLoop_ok_iff (d f : Str) (keys : List (Str × Str))
    (hu : keys.Pairwise fun a b => a.1 ≠ b.1) :
    authLoop d f keys = none ↔ ∃ p ∈ keys, p.1 = f ∧ containsSub d p.2 = true := by
  induction keys with
  | nil => simp [authLoop]
  | cons kv rest ih =>
    obtain ⟨u, hk⟩ := kv
    rw [List.pairwise_cons] at hu
    obtain ⟨hhead, htail⟩ := hu
    by_cases he : u = f
    · subst he
      by_cases hc : containsSub d hk = true
      · refine iff_of_true (by simp [authLoop, hc]) ⟨(u, hk), List.mem_cons_self _ _, rfl, hc⟩
      · refine iff_of_false (by simp [authLoop, hc]) ?_
        rintro ⟨p, hp, hpf, hpc⟩
        rcases List.mem_cons.mp hp with rfl | hp'
        · exact hc hpc
        · exact hhead p hp' hpf.symm
    · have step : authLoop d f ((u, hk) :: rest) = authLoop d f rest := by
        simp [authLoop, he]
      rw [step, ih htail]
      constructor
      · rintro ⟨p, hp, hpf, hpc⟩
        exact ⟨p, List.mem_cons_of_mem _ hp, hpf, hpc⟩
      · rintro ⟨p, hp, hpf, hpc⟩
        rcases List.mem_cons.mp hp with rfl | hp'
        · exact absurd hpf he
        · exact ⟨p, hp', hpf, hpc⟩

theorem authLoop_fail (d f : Str) (keys : List (Str × Str))
    (h : authLoop d f keys ≠ none) :
    authLoop d f keys = some (Error.unauthorized d) := by
  induction keys with
  | nil => rfl
  | cons kv rest ih =>
    obtain ⟨u, hk⟩ := kv
    by_cases he : u = f
    · by_cases hc : containsSub d hk = true
      · simp [authLoop, he, hc] at h
      · simp [authLoop, he, hc]
    · have step : authLoop d f ((u, hk) :: rest) = authLoop d f rest := by
        simp [authLoop, he]
      rw [step] at h ⊢
      exact ih h

theorem sentinel_length : sentinel.length = 31 := by decide

theorem composeBody_first (body : Str) (i : Nat)
    (hocc : sentinelAt body i = true)
    (hfirst : ∀ j < i, sentinelAt body j = false) :
    composeBody body = Body.alternative (body.take i) (body.drop (i + 31)) := by
  have hf : findSub sentinel body = some i := findSub_of_first sentinel body i hocc hfirst
  simp [composeBody, hf]

theorem composeBody_no_sentinel (body : Str)
    (h : ∀ i, sentinelAt body i = false) :
    composeBody body = Body.plain body := by
  cases hf : findSub sentinel body with
  | none => simp [composeBody, hf]
  | some i =>
    have hocc : sentinelAt body i = true := findSub_sound sentinel body i hf
    rw [h i] at hocc
    cases hocc

theorem body_decomp (body : Str) (i : Nat) (hocc : sentinelAt body i = true) :
    body = body.take i ++ (sentinel ++ body.drop (i + 31)) := by
  obtain ⟨t, ht⟩ := (startsWithL_iff sentinel (body.drop i)).mp hocc
  have h2 : (sentinel ++ t).drop 31 = t := by
    have h3 := List.drop_left sentinel t
    rwa [sentinel_length] at h3
  have h1 : body.drop (i + 31) = t := by
    calc body.drop (i + 31) = (body.drop i).drop 31 := (List.drop_drop 31 i body).symm
      _ = (sentinel ++ t).drop 31 := by rw [ht]
      _ = t := h2
  conv_lhs => rw [← List.take_append_drop i body]
  rw [ht, h1]

theorem containsSub_eq_of_length (hay pat : Str) (hlen : hay.length = pat.length) :
    containsSub hay pat = true ↔ hay = pat := by
  constructor
  · intro h
    obtain ⟨i, hi⟩ := Option.isSome_iff_exists.mp h
    have hs := findSub_sound pat hay i hi
    obtain ⟨t, ht⟩ := (startsWithL_iff pat (hay.drop i)).mp hs
    have hld : (hay.drop i).length = hay.length - i := List.length_drop i hay
    rw [ht, List.length_append] at hld
    have ht0 : t = [] := List.eq_nil_of_length_eq_zero (by omega)
    subst ht0
    rw [List.append_nil] at ht
    rcases Nat.eq_zero_or_pos pat.length with hp | hp
    · have hpnil : pat = [] := List.eq_nil_of_length_eq_zero hp
      have hhnil : hay = [] := List.eq_nil_of_length_eq_zero (by omega)
      rw [hpnil, hhnil]
    · have hi0 : i = 0 := by simp at hld; omega
      subst hi0
      simpa using ht
  · rintro rfl
    have h0 : findSub hay hay = some 0 :=
      findSub_of_first hay hay 0 (by simpa using startsWithL_refl hay)
        (fun j hj => absurd hj (Nat.not_lt_zero j))
    simp [containsSub, h0]

theorem authLoop_eq_exact (d f : Str) (keys : List (Str × Str))
    (hd : d.length = 64) (hkeys : ∀ p ∈ keys, p.2.length = 64) :
    authLoop d f keys = authLoopExact d f keys := by
  induction keys with
  | nil => rfl
  | cons kv rest ih =>
    obtain ⟨u, hk⟩ := kv
    have hhk : hk.length = 64 := hkeys (u, hk) (List.mem_cons_self _ _)
    have hrest : ∀ p ∈ rest, p.2.length = 64 :=
      fun p hp => hkeys p (List.mem_cons_of_mem _ hp)
    by_cases he : u = f
    · have hiff := containsSub_eq_of_length d hk (by rw [hd, hhk])
      have hstep : authLoop d f ((u, hk) :: rest) =
          if containsSub d hk = true then none else some (Error.unauthorized d) := by
        simp [authLoop, he]
      have hstep2 : authLoopExact d f ((u, hk) :: rest) =
          if d = hk then none else some (Error.unauthorized d) := by
        simp [authLoopExact, he]
      rw [hstep, hstep2]
      by_cases hc : containsSub d hk = true
      · rw [if_pos hc, if_pos (hiff.mp hc)]
      · rw [if_neg hc, if_neg (fun hcontra => hc (hiff.mpr hcontra))]
    · simp [authLoop, authLoopExact, he, ih hrest]

theorem parse_key_val_hash_length (s k v : Str)
    (h : parse_key_val s = some (k, v)) : v.length = 64 := by
  unfold parse_key_val at h
  split at h
  · cases h
  · dsimp only at h
    split at h
    · split at h
      · rename_i hcond
        cases h
        exact hcond.1
      · cases h
    · cases h

/-- C2: for every request body in which the sentinel occurs, at its found
(first) offset `i` the composed message is a two-part alternative body
whose plain part is exactly the text before `i` and whose HTML part is
exactly the text from `i + 31` on; moreover the body decomposes exactly
into plain part, sentinel, and HTML part, so no characters are duplicated
or dropped from either part. -/
theorem c2_sentinel_split (body : Str) (i : Nat)
    (hocc : sentinelAt body i = true)
    (hfirst : ∀ j < i, sentinelAt body j = false) :
    composeBody body = Body.alternative (body.take i) (body.drop (i + 31))
    ∧ body = body.take i ++ (sentinel ++ body.drop (i + 31)) :=
  ⟨composeBody_first body i hocc hfirst, body_decomp body i hocc⟩

/-- Concrete request body of the spec's splitting scenario. -/
def body2 : Str := "plain text\n-----END-TEXT-BEGIN-HTML-----\n<b>html</b>".data

/-- Witness for C2 at the spec's scenario body, sentinel found at offset
10: the split is plain "plain text" and HTML "<b>html</b>". -/
theorem c2_witness :
    sentinelAt body2 10 = true
    ∧ (composeBody body2 = Body.alternative "plain text".data "<b>html</b>".data
      ∧ body2 = "plain text".data ++ (sentinel ++ "<b>html</b>".data)) :=
  ⟨by decide, c2_sentinel_split body2 10 (by decide) (by decide)⟩

/-- C5: header extraction matches the five recognised names
case-insensitively, keeps the value of the last occurrence of a repeated
name, lowercases the extracted `from` value while every other field keeps
its original case, and never fails (absent fields are simply `none`, as
the total function `extract` shows). -/
theorem c5_extraction (headers : List (Str × Str)) :
    (extract headers).to_ = lastVal "to".data headers
    ∧ (extract headers).from_ = (lastVal "from".data headers).map asciiLowerL
    ∧ (extract headers).subject = lastVal "subject".data headers
    ∧ (extract headers).reply_to = lastVal "reply-to".data headers
    ∧ (extract headers).api_key = lastVal "api-key".data headers :=
  extract_eq_lastVal headers

/-- C6: for every request body in which the sentinel occurs at no offset,
the composed body is a single-part plain body equal to the raw body
unchanged. -/
theorem c6_plain_identity (body : Str)
    (h : ∀ i, sentinelAt body i = false) :
    composeBody body = Body.plain body :=
  composeBody_no_sentinel body h

/-- Concrete sentinel-free body. -/
def body6 : Str := "hello, there is no marker in here".data

/-- Witness for C6: a sentinel-free body is passed through unchanged. -/
theorem c6_witness : composeBody body6 = Body.plain body6 :=
  c6_plain_identity body6 (fun i => findSub_complete sentinel body6 (by rfl) i)

/-- C7: for every failing request the description is written to the
operational error log exactly when the failure is not an authentication
failure: an `Unauthorized` outcome logs nothing, every other kind logs
its description. -/
theorem c7_error_logging (e : Error) :
    errorLog (Except.error e)
      = (if isAuthFailure e = true then [] else [e.description]) := by
  cases e <;> rfl

/-- C8: running the pipeline twice on identical inputs (same headers, body
and unchanged registry) yields the same outcome kind both times — the
pipeline is a pure function of its inputs, so the two runs agree. -/
theorem c8_two_run_determinism (sha : Str → Str) (parseMb : Str → Option Mailbox)
    (transportOk : ComposedMessage → Bool) (headers : List (Str × Str))
    (body : Str) (keys : List (Str × Str)) :
    outKind (handle_request sha parseMb transportOk headers body keys).1
      = outKind (handle_request sha parseMb transportOk headers body keys).1
    ∧ handle_request sha parseMb transportOk headers body keys
      = handle_request sha parseMb transportOk headers body keys :=
  ⟨rfl, rfl⟩

/-- C9: the loader only admits 64-character stored hashes, and whenever
every stored hash has length 64 and the computed digest has length 64
(as a SHA-256 hex digest does), the containment-based authorization of
the source coincides with strict-equality authorization. -/
theorem c9_containment_eq_exact :
    (∀ s k v, parse_key_val s = some (k, v) → v.length = 64)
    ∧ (∀ (sha : Str → Str) (api_key from_ : Option Str) (keys : List (Str × Str)),
        (∀ t, (sha t).length = 64) → (∀ p ∈ keys, p.2.length = 64) →
        authenticate sha api_key from_ keys = authenticateExact sha api_key from_ keys) := by
  refine ⟨parse_key_val_hash_length, ?_⟩
  intro sha api_key from_ keys hsha hkeys
  cases api_key with
  | none => rfl
  | some k => exact authLoop_eq_exact (sha k) _ keys (hsha k) hkeys

/-- A 64-character (mock) digest value. -/
def digest64 : Str := "aaaaaaaaaaaaaaaaaaaaaaaaaaaaaaaaaaaaaaaaaaaaaaaaaaaaaaaaaaaaaaaa".data

/-- Digest function stub returning a fixed 64-character digest. -/
def sha64 : Str → Str := fun _ => digest64

/-- Concrete one-entry registry with a 64-character stored hash. -/
def keys9 : List (Str × Str) := [("u@x.com".data, digest64)]

/-- Witness for C9 at a concrete 64-character registry and digest. -/
theorem c9_witness :
    authenticate sha64 (some "k".data) (some "u@x.com".data) keys9
      = authenticateExact sha64 (some "k".data) (some "u@x.com".data) keys9 :=
  c9_containment_eq_exact.2 sha64 (some "k".data) (some "u@x.com".data) keys9
    (fun _ => rfl) (by decide)

/-- C1: for a request whose headers yield an api-key, authentication
succeeds exactly when the registry (with unique identities, as the data
model requires) has an entry whose identity equals the lowercased `from`
(empty when absent) and whose stored hash is contained in the computed
digest; an absent api-key yields `MissingApiKey`; every other failing case
yields `Unauthorized` carrying the computed digest; and an authentication
failure is the pipeline's outcome. -/
theorem c1_authentication (sha : Str → Str) (keys : List (Str × Str))
    (headers : List (Str × Str))
    (huniq : keys.Pairwise fun a b => a.1 ≠ b.1) :
    ((extract headers).api_key = none →
      authenticate sha (extract headers).api_key (extract headers).from_ keys
        = some Error.missingApiKey)
    ∧ (∀ k, (extract headers).api_key = some k →
        ((authenticate sha (extract headers).api_key (extract headers).from_ keys = none
            ↔ ∃ p ∈ keys,
                p.1 = (((extract headers).from_).map asciiLowerL).getD []
                ∧ containsSub (sha k) p.2 = true)
          ∧ (authenticate sha (extract headers).api_key (extract headers).from_ keys ≠ none →
              authenticate sha (extract headers).api_key (extract headers).from_ keys
                = some (Error.unauthorized (sha k)))))
    ∧ (∀ (parseMb : Str → Option Mailbox) (transportOk : ComposedMessage → Bool)
        (body : Str) (e : Error),
        authenticate sha (extract headers).api_key (extract headers).from_ keys = some e →
        (handle_request sha parseMb transportOk headers body keys).1 = Except.error e) := by
  refine ⟨?_, ?_, ?_⟩
  · intro h
    rw [h]
    rfl
  · intro k hk
    rw [hk]
    exact ⟨authLoop_ok_iff (sha k) _ keys huniq, authLoop_fail (sha k) _ keys⟩
  · intro parseMb transportOk body e he
    simp [handle_request, he]

/-- Digest stub whose output is the stored hash of `keys1`. -/
def shaH : Str → Str := fun _ => "h".data

/-- Concrete headers carrying api-key and a mixed-case `From`. -/
def headers1 : List (Str × Str) :=
  [("Api-Key".data, "secret".data), ("From".data, "Alice@X.com".data)]

/-- Concrete one-entry registry matching the lowercased `from`. -/
def keys1 : List (Str × Str) := [("alice@x.com".data, "h".data)]

/-- Witness for C1: a registry entry for the lowercased `from` whose hash
is contained in the digest authorizes the request. -/
theorem c1_witness :
    keys1.Pairwise (fun a b => a.1 ≠ b.1)
    ∧ authenticate shaH (extract headers1).api_key (extract headers1).from_ keys1 = none :=
  ⟨by decide,
    ((c1_authentication shaH keys1 headers1 (by decide)).2.1 "secret".data rfl).1.mpr
      ⟨("alice@x.com".data, "h".data), by decide, rfl, rfl⟩⟩

/-- Digest stub returning the empty string. -/
def shaC : Str → Str := fun _ => []

/-- Mailbox-parser stub failing on every input. -/
def pmNone : Str → Option Mailbox := fun _ => none

/-- Mailbox-parser stub accepting every input. -/
def pmSome : Str → Option Mailbox := fun _ => some ⟨none, "b@y.com".data⟩

/-- Transport stub that always succeeds. -/
def tokC : ComposedMessage → Bool := fun _ => true

theorem extract_from_none (headers : List (Str × Str))
    (hnf : ∀ h ∈ headers, ¬ asciiLowerL h.1 = "from".data) :
    (extract headers).from_ = none := by
  have hchar := (extract_eq_lastVal headers).2.1
  have hfilter : headers.filter (fun h => decide (asciiLowerL h.1 = "from".data)) = [] := by
    apply List.filter_eq_nil_iff.mpr
    intro a ha
    simpa using hnf a ha
  rw [hchar]
  unfold lastVal
  rw [hfilter]
  rfl

/-- C3 counterexample: a request with no `from` header need not fail with
`MissingFrom`.  With no headers at all the pipeline fails with
`MissingApiKey`; with only an `api-key` header and a registry that
authorizes it, the pipeline fails with `MissingTo`; both differ from
`MissingFrom`. -/
theorem c3_counterexample :
    List.filter (fun h => decide (asciiLowerL h.1 = "from".data))
      ([] : List (Str × Str)) = []
    ∧ (handle_request shaC pmNone tokC [] [] []).1 = Except.error Error.missingApiKey
    ∧ List.filter (fun h => decide (asciiLowerL h.1 = "from".data))
        [("api-key".data, "k".data)] = []
    ∧ (handle_request shaC pmNone tokC [("api-key".data, "k".data)] []
        [([], [])]).1 = Except.error Error.missingTo
    ∧ Error.missingApiKey ≠ Error.missingFrom
    ∧ Error.missingTo ≠ Error.missingFrom :=
  ⟨rfl, rfl, rfl, rfl, by decide, by decide⟩

/-- C3 (amended): for every request in which no `from` header is present,
*provided authentication succeeds and the `to` field is present and
parses*, the pipeline fails with `MissingFrom`; otherwise an earlier
stage (missing api-key, failed authorization, missing or malformed `to`)
fails first, since `from` is only required at validation. -/
theorem c3_amended (sha : Str → Str) (parseMb : Str → Option Mailbox)
    (transportOk : ComposedMessage → Bool) (headers : List (Str × Str))
    (body : Str) (keys : List (Str × Str))
    (hnf : ∀ h ∈ headers, ¬ asciiLowerL h.1 = "from".data)
    (hauth : authenticate sha (extract headers).api_key (extract headers).from_ keys = none)
    (hto : ∃ s mb, (extract headers).to_ = some s ∧ parseMb s = some mb) :
    (handle_request sha parseMb transportOk headers body keys).1
      = Except.error Error.missingFrom := by
  have hfrom : (extract headers).from_ = none := extract_from_none headers hnf
  obtain ⟨s, mb, hs, hmb⟩ := hto
  have hval : validate parseMb (extract headers) = Except.error Error.missingFrom := by
    unfold validate
    simp only [hs, hmb, hfrom]
  simp [handle_request, hauth, hval]

/-- Concrete headers with api-key and `to` but no `from`. -/
def headers3 : List (Str × Str) :=
  [("api-key".data, "k".data), ("to".data, "b@y.com".data)]

/-- Registry with an empty identity, matching an absent `from`. -/
def keys3 : List (Str × Str) := [([], [])]

/-- Witness for C3 (amended): an empty-identity registry entry authorizes
the absent `from`, `to` parses, and the outcome is `MissingFrom`. -/
theorem c3_witness :
    (handle_request shaC pmSome tokC headers3 [] keys3).1
      = Except.error Error.missingFrom :=
  c3_amended shaC pmSome tokC headers3 [] keys3 (by decide) rfl
    ⟨"b@y.com".data, ⟨none, "b@y.com".data⟩, rfl, rfl⟩

/-- C4: per request the transport send is invoked at most once, and it is
never invoked when the outcome is one of the early failure kinds (every
non-`DispatchFailed` error aborts before dispatch); one call yields one
terminal outcome. -/
theorem c4_dispatch_once (sha : Str → Str) (parseMb : Str → Option Mailbox)
    (transportOk : ComposedMessage → Bool) (headers : List (Str × Str))
    (body : Str) (keys : List (Str × Str)) :
    (handle_request sha parseMb transportOk headers body keys).2.length ≤ 1
    ∧ ∀ e, (handle_request sha parseMb transportOk headers body keys).1 = Except.error e →
        e ≠ Error.dispatchFailed →
        (handle_request sha parseMb transportOk headers body keys).2 = [] := by
  simp only [handle_request]
  cases hauth : authenticate sha (extract headers).api_key (extract headers).from_ keys with
  | some e => exact ⟨by simp, fun e' h1 h2 => rfl⟩
  | none =>
    cases hval : validate parseMb (extract headers) with
    | error e => exact ⟨by simp, fun e' h1 h2 => rfl⟩
    | ok v =>
      obtain ⟨to_, from_, reply_to, subject⟩ := v
      by_cases hT : transportOk ⟨from_, to_, subject, reply_to, composeBody body⟩ = true
      · refine ⟨by simp [hT], fun e' h1 h2 => ?_⟩
        simp [hT] at h1
      · refine ⟨by simp [hT], fun e' h1 h2 => ?_⟩
        simp only [Bool.not_eq_true] at hT
        simp [hT] at h1
        exact absurd h1.symm h2

/-- Witness for C4: with no headers the outcome is `MissingApiKey` and the
transport is never invoked. -/
theorem c4_witness :
    (handle_request shaC pmNone tokC [] [] []).2.length ≤ 1
    ∧ (handle_request shaC pmNone tokC [] [] []).2 = [] :=
  ⟨(c4_dispatch_once shaC pmNone tokC [] [] []).1,
    (c4_dispatch_once shaC pmNone tokC [] [] []).2 Error.missingApiKey rfl (by decide)⟩

/-- Body consisting of the sentinel immediately followed by a second,
self-overlapping sentinel occurrence (offsets 0 and 30). -/
def body10 : Str :=
  "\n-----END-TEXT-BEGIN-HTML-----\n-----END-TEXT-BEGIN-HTML-----\n".data

/-- C10 counterexample: the sentinel occurs in `body10` at offsets 0 and
30; the split happens at the first occurrence, but the later occurrence
does NOT remain verbatim inside the HTML part (the HTML part contains no
sentinel occurrence at all), because it overlaps the removed sentinel. -/
theorem c10_counterexample :
    sentinelAt body10 0 = true
    ∧ sentinelAt body10 30 = true
    ∧ composeBody body10
        = Body.alternative [] "-----END-TEXT-BEGIN-HTML-----\n".data
    ∧ (∀ i, sentinelAt ("-----END-TEXT-BEGIN-HTML-----\n".data) i = false) :=
  ⟨by decide, by decide, rfl,
    fun i => findSub_complete sentinel ("-----END-TEXT-BEGIN-HTML-----\n".data) (by rfl) i⟩

/-- C10 (amended): when the sentinel first occurs at offset `i`, the split
is performed there, and every later occurrence at an offset `k ≥ i + 31`
(i.e. not overlapping the removed sentinel) remains verbatim inside the
HTML part, at offset `k - (i + 31)`. -/
theorem c10_amended (body : Str) (i k : Nat)
    (hocc : sentinelAt body i = true)
    (hfirst : ∀ j < i, sentinelAt body j = false)
    (hk : sentinelAt body k = true)
    (hge : i + 31 ≤ k) :
    composeBody body = Body.alternative (body.take i) (body.drop (i + 31))
    ∧ sentinelAt (body.drop (i + 31)) (k - (i + 31)) = true := by
  refine ⟨composeBody_first body i hocc hfirst, ?_⟩
  have hdd : (body.drop (i + 31)).drop (k - (i + 31)) = body.drop k := by
    rw [List.drop_drop]
    congr 1
    omega
  unfold sentinelAt
  rw [hdd]
  exact hk

/-- Body with sentinel occurrences at offsets 1 and 33. -/
def body10b : Str :=
  "A\n-----END-TEXT-BEGIN-HTML-----\nB\n-----END-TEXT-BEGIN-HTML-----\nC".data

/-- Witness for C10 (amended): the split happens at the first occurrence
(offset 1) and the second occurrence (offset 33) survives verbatim at
offset 1 of the HTML part. -/
theorem c10_witness :
    composeBody body10b
      = Body.alternative "A".data "B\n-----END-TEXT-BEGIN-HTML-----\nC".data
    ∧ sentinelAt (body10b.drop 32) 1 = true :=
  c10_amended body10b 1 33 (by decide) (by decide) (by decide) (by decide)
